import Mathlib

set_option maxRecDepth 10000

/-!
Shallow embedding of the Salesforce-formula tokenizer, classifier, error
detector, error marker and pretty-printer from
`src/docs/script/cfg-sfdc-tokens.js`, together with proofs of the spec's
claims about them.

Conventions of the embedding:
* JS strings are modelled as `List Char`; indices are `Nat` offsets.
* JS `toUpperCase` is modelled on the ASCII range (all keyword-table entries
  and all regex character classes in the source are ASCII).
* The script's `while` loops over a cursor are modelled either as structural
  recursion over the remaining suffix of the input, or (where the loop skips
  ahead by computed amounts) as fuel-based recursion; the fuel supplied by the
  wrappers strictly exceeds the number of loop iterations, since every
  iteration of every loop in the source consumes at least one character.
-/

namespace Sfdc

/-- The tab character. -/
def tabChar : Char := Char.ofNat 9

/-- The line-feed character. -/
def nlChar : Char := Char.ofNat 10

/-- The carriage-return character. -/
def crChar : Char := Char.ofNat 13

/-- The double-quote character. -/
def dquoteChar : Char := Char.ofNat 34

/-- The single-quote character. -/
def squoteChar : Char := Char.ofNat 39

/-- The backslash character. -/
def backslashChar : Char := Char.ofNat 92

/-- JS `/\s/.test(c)`: whitespace per the ECMAScript `\s` class. -/
def isSpaceJS (c : Char) : Bool :=
  c = ' ' || c = tabChar || c = nlChar || c = crChar ||
  c.toNat = 11 || c.toNat = 12 ||
  c.toNat = 0xa0 || c.toNat = 0x1680 ||
  (0x2000 ≤ c.toNat && c.toNat ≤ 0x200a) ||
  c.toNat = 0x2028 || c.toNat = 0x2029 || c.toNat = 0x202f ||
  c.toNat = 0x205f || c.toNat = 0x3000 || c.toNat = 0xfeff

/-- JS `/\d/.test(c)`. -/
def isDigitJS (c : Char) : Bool := '0' ≤ c && c ≤ '9'

/-- JS `/[a-zA-Z_]/.test(c)`. -/
def isIdentStartJS (c : Char) : Bool :=
  ('a' ≤ c && c ≤ 'z') || ('A' ≤ c && c ≤ 'Z') || c = '_'

/-- JS `/[a-zA-Z0-9_]/.test(c)` (also the ECMAScript word-character class
used by `\b` without the `u` flag). -/
def isIdentCharJS (c : Char) : Bool :=
  ('a' ≤ c && c ≤ 'z') || ('A' ≤ c && c ≤ 'Z') || ('0' ≤ c && c ≤ '9') || c = '_'

/-- `c` is an ASCII lowercase letter, JS `/^[a-z]/` on a single char. -/
def isLowerAZ (c : Char) : Bool := 'a' ≤ c && c ≤ 'z'

/-- `c` is an ASCII uppercase letter, JS `/^[A-Z]/` on a single char. -/
def isUpperAZ (c : Char) : Bool := 'A' ≤ c && c ≤ 'Z'

/-- Horizontal whitespace, the JS regex class `[ \t]`. -/
def isHT (c : Char) : Bool := c = ' ' || c = tabChar

/-- ASCII model of JS `String.prototype.toUpperCase` on one character. -/
def toUpperJS (c : Char) : Char :=
  if isLowerAZ c then Char.ofNat (c.toNat - 32) else c

/-- Uppercase a JS string (ASCII model). -/
def upperJS (s : List Char) : List Char := s.map toUpperJS

/-- The `TOKEN_TYPES` enumeration of the source. -/
inductive TokenType where
  | function | field | nested_field | custom_function | formula_field
  | operator | string | number | constant | parenthesis | bracket
  | comma | whitespace | identifier | comment | error | dot
deriving DecidableEq, Repr

/-- A token produced by the tokenizer: `{ type, value, start, end }`.
The JS field `end` is called `stop` here (`end` is a Lean keyword). -/
structure Token where
  type : TokenType
  value : List Char
  start : Nat
  stop : Nat
deriving DecidableEq, Repr

/-- `SF_KEYWORDS.logical`. -/
def SF_logical : List String :=
  ["AND", "OR", "NOT", "IF", "CASE", "SWITCH", "XOR", "NAND", "NOR"]

/-- `SF_KEYWORDS.text` (duplicates `CONTAINS`/`SUBSTITUTE` kept as in source). -/
def SF_text : List String :=
  ["TEXT", "LEFT", "RIGHT", "MID", "LEN", "FIND", "SUBSTITUTE", "TRIM",
   "UPPER", "LOWER", "PROPER", "BR", "HYPERLINK", "IMAGE", "VALUE",
   "CONTAINS", "BEGINS", "CONTAINS", "INCLUDES", "EXCLUDES", "REGEX",
   "REGEX_REPLACE", "SPLIT", "JOIN", "REPLACE", "SUBSTITUTE", "REPT",
   "CLEAN", "CODE", "CHAR", "UNICHAR", "UNICODE"]

/-- `SF_KEYWORDS.math`. -/
def SF_math : List String :=
  ["ABS", "CEILING", "FLOOR", "ROUND", "MOD", "MAX", "MIN", "SQRT", "EXP",
   "LN", "LOG", "POWER", "RAND", "SIN", "COS", "TAN", "ASIN", "ACOS",
   "ATAN", "PI", "DEGREES", "RADIANS", "SIGN", "FACT", "GCD", "LCM"]

/-- `SF_KEYWORDS.datetime`. -/
def SF_datetime : List String :=
  ["TODAY", "NOW", "DATE", "DATETIMEVALUE", "DATEVALUE", "YEAR", "MONTH",
   "DAY", "HOUR", "MINUTE", "SECOND", "WEEKDAY", "ADDMONTHS",
   "MONTHS_BETWEEN", "DAYS_BETWEEN", "HOURS_BETWEEN", "MINUTES_BETWEEN",
   "SECONDS_BETWEEN", "DATEADD", "DATEDIFF", "DATETIME_FORMAT",
   "TIMEVALUE", "TIMENOW", "TIMETONUM", "NUMTOTIME", "CALENDAR_MONTH",
   "CALENDAR_QUARTER", "CALENDAR_YEAR", "FISCAL_MONTH", "FISCAL_QUARTER",
   "FISCAL_YEAR"]

/-- `SF_KEYWORDS.conversion`. -/
def SF_conversion : List String :=
  ["VALUE", "TEXT", "BLANKVALUE", "NULLVALUE", "CURRENCY", "NUMBER",
   "DOUBLE", "INT", "LONG", "ISNULL", "ISBLANK", "ISNUMBER", "ISTEXT",
   "ISDATE", "ISCHANGED", "PRIORVALUE", "ISNEW", "ISPICKVAL"]

/-- `SF_KEYWORDS.advanced`. -/
def SF_advanced : List String :=
  ["CASE", "SWITCH", "CHOOSE", "COALESCE", "IFNULL", "NVL", "DECODE",
   "GREATEST", "LEAST", "RANK", "DENSE_RANK", "ROW_NUMBER", "LAG", "LEAD",
   "FIRST_VALUE", "LAST_VALUE"]

/-- `SF_KEYWORDS.constants`. -/
def SF_constants : List String := ["TRUE", "FALSE", "NULL", "BLANK", "EMPTY"]

/-- The combined function table used by `classifyTokens` and
`detectFormulaErrors` (logical ++ text ++ math ++ datetime ++ conversion ++
advanced), as lists of characters. -/
def allFunctionsFull : List (List Char) :=
  (SF_logical ++ SF_text ++ SF_math ++ SF_datetime ++ SF_conversion ++
    SF_advanced).map String.toList

/-- The function table used by `prettifySalesforceFormula`
(logical ++ text ++ math ++ datetime ++ conversion, no advanced). -/
def allFunctionsPretty : List (List Char) :=
  (SF_logical ++ SF_text ++ SF_math ++ SF_datetime ++ SF_conversion).map
    String.toList

/-- The constants table as lists of characters. -/
def constantsList : List (List Char) := SF_constants.map String.toList

/-- The `OPERATORS` array, multi-character lexemes first, as in the source. -/
def OPERATORS : List (List Char) :=
  (["<=", ">=", "<>", "==", "&&", "||", "=", "<", ">", "+", "-", "*", "/",
    "&"]).map String.toList

/-- Body of the quoted-string loop: consume until an unescaped closing quote
`q` or end of input; a backslash followed by another character is consumed as
a pair.  Returns the consumed characters and their count. -/
def scanStringBody (q : Char) : List Char → List Char × Nat
  | [] => ([], 0)
  | c :: rest =>
    if c = q then ([], 0)
    else if c = backslashChar then
      match rest with
      | d :: rest2 =>
        let vn := scanStringBody q rest2
        (c :: d :: vn.1, vn.2 + 2)
      | [] => ([c], 1)
    else
      let vn := scanStringBody q rest
      (c :: vn.1, vn.2 + 1)

/-- Body of the block-comment loop: consume until just before a `*/` or
end of input. -/
def scanBlockBody : List Char → List Char × Nat
  | '*' :: '/' :: _ => ([], 0)
  | c :: rest =>
    let vn := scanBlockBody rest
    (c :: vn.1, vn.2 + 1)
  | [] => ([], 0)

/-- The bracket-count update applied to each scanned character
(`if (currentChar === "[") bracketCount++; else if (currentChar === "]")
bracketCount--;`). -/
def bracketDelta (c : Char) (count : Int) : Int :=
  if c = '[' then count + 1 else if c = ']' then count - 1 else count

/-- The bracket-balanced field extraction loop of the tokenizer
(`while (tempPosition < length && bracketCount >= 0) { ... if
(bracketCount === 0) break; }`). -/
def extractBalanced (count : Int) : List Char → List Char × Nat
  | [] => ([], 0)
  | c :: rest =>
    if count < 0 then ([], 0)
    else if bracketDelta c count = 0 then ([c], 1)
    else
      let vn := extractBalanced (bracketDelta c count) rest
      (c :: vn.1, vn.2 + 1)

/-- The regular field-reference loop of the tokenizer
(`while (position < length && bracketCount > 0)`), entered after the
opening `[` has been consumed with `bracketCount = 1`. -/
def scanFieldTail (count : Int) : List Char → List Char × Nat
  | [] => ([], 0)
  | c :: rest =>
    if count ≤ 0 then ([], 0)
    else
      let vn := scanFieldTail (bracketDelta c count) rest
      (c :: vn.1, vn.2 + 1)

/-- Length of the leading JS-whitespace run (the `while ... /\s/.test ...
tempPosition++` skips). -/
def wsRunLen (l : List Char) : Nat := (l.takeWhile isSpaceJS).length

/-- The greedy dot-then-bracket extension loop for nested field references
(source lines 489–533).  `l` is the input after the first bracket-balanced
field; `acc` is the joined value so far.  Returns the joined value, the
number of characters consumed by the loop, and whether any extension
happened (`isNestedPattern`). -/
def extendNested : Nat → List Char → List Char → Bool → List Char × Nat × Bool
  | 0, _, acc, isNested => (acc, 0, isNested)
  | fuel + 1, l, acc, isNested =>
    let k1 := wsRunLen l
    match l.drop k1 with
    | '.' :: l2 =>
      let k2 := wsRunLen l2
      match l2.drop k2 with
      | '[' :: _ =>
        let en := extractBalanced 0 (l2.drop k2)
        let r :=
          extendNested fuel ((l2.drop k2).drop en.2) (acc ++ '.' :: en.1) true
        (r.1, k1 + 1 + k2 + en.2 + r.2.1, r.2.2)
      | _ => (acc, k1 + 1 + k2, isNested)
    | _ => (acc, k1, isNested)

/-- Rule 1 of the tokenizer: a maximal whitespace run. -/
def wsStep (pos : Nat) (c : Char) (rest : List Char) : Option Token × Nat :=
  let ws := (c :: rest).takeWhile isSpaceJS
  let n := ws.length
  (some ⟨.whitespace, ws, pos + n - ws.length, pos + n⟩, n)

/-- Rules 2–3 of the tokenizer: a quoted string with quote character `q`
(the opening quote `c` has been seen; the closing quote is added only when
the string is terminated before end of input). -/
def stringStep (q : Char) (pos : Nat) (c : Char) (rest : List Char) :
    Option Token × Nat :=
  let bn := scanStringBody q rest
  let vn : List Char × Nat :=
    if bn.2 < rest.length then (c :: (bn.1 ++ [q]), bn.2 + 2)
    else (c :: bn.1, bn.2 + 1)
  (some ⟨.string, vn.1, pos + vn.2 - vn.1.length, pos + vn.2⟩, vn.2)

/-- Rule 4 of the tokenizer: a `/* ... */` block comment (`rest` starts with
the `*` of the opening delimiter). -/
def blockCommentStep (pos : Nat) (rest : List Char) : Option Token × Nat :=
  let rest2 := rest.tail
  let bn := scanBlockBody rest2
  let vn : List Char × Nat :=
    if bn.2 < rest2.length then ('/' :: '*' :: (bn.1 ++ ['*', '/']), bn.2 + 4)
    else ('/' :: '*' :: bn.1, bn.2 + 2)
  (some ⟨.comment, vn.1, pos + vn.2 - vn.1.length, pos + vn.2⟩, vn.2)

/-- Rule 5 of the tokenizer: a `// ...` line comment (stops before a line
break, which is not consumed). -/
def lineCommentStep (pos : Nat) (rest : List Char) : Option Token × Nat :=
  let body := rest.tail.takeWhile (fun x => !(x = nlChar) && !(x = crChar))
  let value := '/' :: '/' :: body
  let n := body.length + 2
  (some ⟨.comment, value, pos + n - value.length, pos + n⟩, n)

/-- Rule 6 of the tokenizer: a bracketed field reference at `[`, with the
nested-field look-ahead; falls back to a plain bracket-balanced field when no
dot-bracket extension matched, classifying it `nested_field` exactly when its
text contains a dot. -/
def bracketStep (pos : Nat) (c : Char) (rest : List Char) : Option Token × Nat :=
  let fb := extractBalanced 0 (c :: rest)
  let ext := extendNested (rest.length + 1) ((c :: rest).drop fb.2) fb.1 false
  if ext.2.2 then
    (some ⟨.nested_field, ext.1, pos, pos + (fb.2 + ext.2.1)⟩, fb.2 + ext.2.1)
  else
    let ft := scanFieldTail 1 rest
    let field := '[' :: ft.1
    let ftype :=
      if field.contains '.' then TokenType.nested_field else TokenType.field
    let n := ft.2 + 1
    (some ⟨ftype, field, pos + n - field.length, pos + n⟩, n)

/-- Rule 10 of the tokenizer: a lone dot, suppressed (no token emitted, the
cursor still advances) when the previous token is a field or nested field and
the next non-whitespace character is `[`. -/
def dotStep (last : Option TokenType) (pos : Nat) (c : Char) (rest : List Char) :
    Option Token × Nat :=
  let suppressed :=
    match last with
    | some t =>
      (t == TokenType.field || t == TokenType.nested_field) &&
        ((rest.drop (wsRunLen rest)).head? == some '[')
    | none => false
  if suppressed then (none, 1)
  else (some ⟨.dot, [c], pos, pos + 1⟩, 1)

/-- Rule 9 of the tokenizer: a number (digits and dots, uncritically). -/
def numberStep (pos : Nat) (c : Char) (rest : List Char) : Option Token × Nat :=
  let num := (c :: rest).takeWhile (fun x => isDigitJS x || x = '.')
  let n := num.length
  (some ⟨.number, num, pos + n - num.length, pos + n⟩, n)

/-- Rule 11 of the tokenizer: an identifier. -/
def identStep (pos : Nat) (c : Char) (rest : List Char) : Option Token × Nat :=
  let ident := (c :: rest).takeWhile isIdentCharJS
  let n := ident.length
  (some ⟨.identifier, ident, pos + n - ident.length, pos + n⟩, n)

/-- Rules 6–12 of the tokenizer (bracketed fields, parentheses, commas,
numbers, dots, identifiers and the single-character fallback), reached when
no whitespace/string/comment/operator rule matched. -/
def lowStep (last : Option TokenType) (pos : Nat) (c : Char) (rest : List Char) :
    Option Token × Nat :=
  if c = '[' then bracketStep pos c rest
  else if c = '(' || c = ')' then (some ⟨.parenthesis, [c], pos, pos + 1⟩, 1)
  else if c = ',' then (some ⟨.comma, [c], pos, pos + 1⟩, 1)
  else if isDigitJS c then numberStep pos c rest
  else if c = '.' then dotStep last pos c rest
  else if isIdentStartJS c then identStep pos c rest
  else (some ⟨.identifier, [c], pos, pos + 1⟩, 1)

/-- One iteration of the tokenizer's main `while` loop, at cursor `pos`, with
current character `c` and remaining input `rest`; `last` is the type of the
most recently pushed token (`tokens[tokens.length - 1]`).  Returns the token
pushed by this iteration (`none` exactly when the dot-suppression rule drops
the character) and the number of characters consumed.  The rules appear in
the source's priority order. -/
def scanStep (last : Option TokenType) (pos : Nat) (c : Char) (rest : List Char) :
    Option Token × Nat :=
  if isSpaceJS c then wsStep pos c rest
  else if c = dquoteChar then stringStep dquoteChar pos c rest
  else if c = squoteChar then stringStep squoteChar pos c rest
  else if c = '/' && rest.head? == some '*' then blockCommentStep pos rest
  else if c = '/' && rest.head? == some '/' then lineCommentStep pos rest
  else
    match OPERATORS.find? (fun op => decide ((c :: rest).take op.length = op)) with
    | some op => (some ⟨.operator, op, pos, pos + op.length⟩, op.length)
    | none => lowStep last pos c rest

/-- The tokenizer's main loop.  `acc` holds the tokens pushed so far in
reverse order (its head is `tokens[tokens.length - 1]`). -/
def tokenizeAux : Nat → Nat → List Char → List Token → List Token
  | 0, _, _, acc => acc.reverse
  | _ + 1, _, [], acc => acc.reverse
  | fuel + 1, pos, c :: rest, acc =>
    match scanStep (acc.head?.map Token.type) pos c rest with
    | (some t, n) => tokenizeAux fuel (pos + n) ((c :: rest).drop n) (t :: acc)
    | (none, n) => tokenizeAux fuel (pos + n) ((c :: rest).drop n) acc

/-- `tokenizeFormula(formula)`.  The `!formula || typeof formula !== "string"`
guard returns `[]` for the empty string; non-string inputs are modelled by
`JSInput` below. -/
def tokenizeFormula (f : List Char) : List Token :=
  if f = [] then [] else tokenizeAux (f.length + 1) 0 f []

/-- The classifier's and error detector's one-token look-ahead
(`for j = i+1; ...; skip whitespace; check parenthesis "("; break`):
the first non-whitespace token of `ts` is an opening parenthesis. -/
def nextNonWsIsOpenParen (ts : List Token) : Bool :=
  match ts.dropWhile (fun t => t.type == TokenType.whitespace) with
  | t :: _ => t.type == TokenType.parenthesis && t.value == ['(']
  | [] => false

/-- JS `/^[a-z]/.test(v)`. -/
def startsLowerJS (v : List Char) : Bool :=
  match v with
  | c :: _ => isLowerAZ c
  | [] => false

/-- JS `/^[A-Z]/.test(v)`. -/
def startsUpperJS (v : List Char) : Bool :=
  match v with
  | c :: _ => isUpperAZ c
  | [] => false

/-- JS `/^[A-Z][a-zA-Z0-9_]*$/.test(v)`. -/
def matchesFormulaFieldPattern (v : List Char) : Bool :=
  match v with
  | c :: rest => isUpperAZ c && rest.all isIdentCharJS
  | [] => false

/-- The body of `classifyTokens`' `map` callback for one token at `index`
(`tokens` is the whole sequence, used for the parenthesis look-ahead). -/
def classifyOne (tokens : List Token) (index : Nat) (token : Token) : Token :=
  if token.type = TokenType.identifier then
    let upperValue := upperJS token.value
    if allFunctionsFull.contains upperValue then
      { token with type := TokenType.function, value := upperValue }
    else if constantsList.contains upperValue then
      { token with type := TokenType.constant, value := upperValue }
    else if startsLowerJS token.value &&
        nextNonWsIsOpenParen (tokens.drop (index + 1)) then
      { token with type := TokenType.custom_function }
    else if token.value.contains '_' && matchesFormulaFieldPattern token.value then
      { token with type := TokenType.formula_field }
    else token
  else token

/-- Index-tracking recursion implementing `tokens.map((token, index) => ...)`. -/
def classifyAux (orig : List Token) : Nat → List Token → List Token
  | _, [] => []
  | i, t :: rest => classifyOne orig i t :: classifyAux orig (i + 1) rest

/-- `classifyTokens(tokens)`. -/
def classifyTokens (tokens : List Token) : List Token := classifyAux tokens 0 tokens

/-- A `FormulaError` record `{ position, message, type }`; `type` is the JS
string `"syntax"` or `"function"`. -/
structure FormulaError where
  position : Nat
  message : String
  type : String
deriving DecidableEq, Repr

/-- The error detector's scan over the token list, carrying the running
open-parenthesis and open-bracket counters; returns the errors pushed during
the scan (in push order) together with the final counter values. -/
def detectLoop : List Token → Int → Int → List FormulaError × Int × Int
  | [], op, ob => ([], op, ob)
  | token :: rest, op, ob =>
    let po : List FormulaError × Int :=
      if token.type = TokenType.parenthesis then
        if token.value = ['('] then ([], op + 1)
        else if token.value = [')'] then
          (if op - 1 < 0 then
            [⟨token.start, "Unmatched closing parenthesis", "syntax"⟩]
          else [], op - 1)
        else ([], op)
      else ([], op)
    let bo : List FormulaError × Int :=
      if token.type = TokenType.bracket then
        if token.value = ['['] then ([], ob + 1)
        else if token.value = [']'] then
          (if ob - 1 < 0 then
            [⟨token.start, "Unmatched closing bracket", "syntax"⟩]
          else [], ob - 1)
        else ([], ob)
      else ([], ob)
    let ferrs : List FormulaError :=
      if token.type = TokenType.identifier then
        if nextNonWsIsOpenParen rest &&
            !(allFunctionsFull.contains (upperJS token.value)) &&
            startsUpperJS token.value then
          [⟨token.start, "Invalid function: " ++ String.mk token.value, "function"⟩]
        else []
      else []
    let r := detectLoop rest po.2 bo.2
    (po.1 ++ bo.1 ++ ferrs ++ r.1, r.2.1, r.2.2)

/-- Message of the aggregate unmatched-opening-parenthesis error
(pluralized as in the source). -/
def pluralParenMsg (n : Int) : String :=
  toString n ++ " unmatched opening parenthesis" ++ (if n > 1 then "es" else "")

/-- Message of the aggregate unmatched-opening-bracket error. -/
def pluralBracketMsg (n : Int) : String :=
  toString n ++ " unmatched opening bracket" ++ (if n > 1 then "s" else "")

/-- `detectFormulaErrors(formula)`. -/
def detectFormulaErrors (f : List Char) : List FormulaError :=
  if f = [] then []
  else
    let tokens := tokenizeFormula f
    let r := detectLoop tokens 0 0
    r.1 ++ (if r.2.1 > 0 then [⟨f.length - 1, pluralParenMsg r.2.1, "syntax"⟩] else [])
        ++ (if r.2.2 > 0 then [⟨f.length - 1, pluralBracketMsg r.2.2, "syntax"⟩] else [])

/-- `markErrorTokens(tokens, errors)`: rewrite to kind `error` every token
whose `start` or `end - 1` is a flagged position. -/
def markErrorTokens (tokens : List Token) (errors : List FormulaError) : List Token :=
  let positions := errors.map FormulaError.position
  tokens.map (fun token =>
    if positions.contains token.start || positions.contains (token.stop - 1) then
      { token with type := TokenType.error }
    else token)

/-- Literal global string replacement, JS `s.replace(/pat/g, repl)` for a
literal pattern: leftmost match, non-overlapping, resume after the match. -/
def replaceAllLit : Nat → List Char → List Char → List Char → List Char
  | 0, _, _, s => s
  | _ + 1, _, _, [] => []
  | fuel + 1, pat, repl, c :: rest =>
    if pat ≠ [] && decide ((c :: rest).take pat.length = pat) then
      repl ++ replaceAllLit fuel pat repl ((c :: rest).drop pat.length)
    else
      c :: replaceAllLit fuel pat repl rest

/-- JS `s.replace(/[ \t]*X[ \t]*/g, mk)` where `X` is a character class
given by `sel` and the replacement may mention the matched character
(`"$1 "`-style). -/
def replaceAroundSet : Nat → (Char → Bool) → (Char → List Char) → List Char → List Char
  | 0, _, _, s => s
  | _ + 1, _, _, [] => []
  | fuel + 1, sel, mk, c :: rest =>
    let k1 := ((c :: rest).takeWhile isHT).length
    match (c :: rest).drop k1 with
    | x :: after =>
      if sel x then
        let k2 := (after.takeWhile isHT).length
        mk x ++ replaceAroundSet fuel sel mk (after.drop k2)
      else
        c :: replaceAroundSet fuel sel mk rest
    | [] => c :: replaceAroundSet fuel sel mk rest

/-- JS `s.replace(/[ \t]+/g, " ")`. -/
def collapseHT : Nat → List Char → List Char
  | 0, s => s
  | _ + 1, [] => []
  | fuel + 1, c :: rest =>
    if isHT c then
      ' ' :: collapseHT fuel (rest.drop ((rest.takeWhile isHT).length))
    else c :: collapseHT fuel rest

/-- JS `s.replace(/a[ \t]*b/g, repl)` (the defensive multi-character
operator fix-ups). -/
def replacePairHT : Nat → Char → Char → List Char → List Char → List Char
  | 0, _, _, _, s => s
  | _ + 1, _, _, _, [] => []
  | fuel + 1, a, b, repl, c :: rest =>
    if c = a then
      let k := (rest.takeWhile isHT).length
      match rest.drop k with
      | x :: after =>
        if x = b then repl ++ replacePairHT fuel a b repl after
        else c :: replacePairHT fuel a b repl rest
      | [] => c :: replacePairHT fuel a b repl rest
    else c :: replacePairHT fuel a b repl rest

/-- Case-insensitive match of the uppercase word `w` at the head of `s`
(ASCII model of the `i` flag, which is exact for non-`u` regexes). -/
def ciMatches (w : List Char) (s : List Char) : Bool :=
  decide ((s.take w.length).map toUpperJS = w)

/-- JS `s.replace(/\bW\b/gi, W)` for an uppercase keyword `W`: word-boundary
delimited, case-insensitive, replaced by its uppercase form.  `prevWord`
records whether the previous character of the original string is a word
character. -/
def replaceWordCI : Nat → List Char → Bool → List Char → List Char
  | 0, _, _, s => s
  | _ + 1, _, _, [] => []
  | fuel + 1, w, prevWord, c :: rest =>
    let boundaryAfter :=
      match (c :: rest).drop w.length with
      | x :: _ => !isIdentCharJS x
      | [] => true
    if w ≠ [] && !prevWord && ciMatches w (c :: rest) && boundaryAfter then
      w ++ replaceWordCI fuel w true ((c :: rest).drop w.length)
    else
      c :: replaceWordCI fuel w (isIdentCharJS c) rest

/-- JS `String.prototype.trim` (strips `\s`-class characters at both ends). -/
def jsTrim (s : List Char) : List Char :=
  ((s.dropWhile isSpaceJS).reverse.dropWhile isSpaceJS).reverse

/-- The `multiCharOps` placeholder table of `prettifySalesforceFormula`. -/
def PLACEHOLDERS : List (List Char × List Char) :=
  [("<=".toList, "___LESS_EQUAL___".toList),
   (">=".toList, "___GREATER_EQUAL___".toList),
   ("<>".toList, "___NOT_EQUAL___".toList),
   ("==".toList, "___EQUAL_EQUAL___".toList),
   ("&&".toList, "___AND___".toList),
   ("||".toList, "___OR___".toList)]

/-- The placeholder-restore table (step 5 of the pretty-printer). -/
def RESTORES : List (List Char × List Char) :=
  [("___LESS_EQUAL___".toList, " <= ".toList),
   ("___GREATER_EQUAL___".toList, " >= ".toList),
   ("___NOT_EQUAL___".toList, " <> ".toList),
   ("___EQUAL_EQUAL___".toList, " == ".toList),
   ("___AND___".toList, " && ".toList),
   ("___OR___".toList, " || ".toList)]

/-- `prettifySalesforceFormula(formula)`.  Every fuel argument is the current
string's length plus one, which strictly exceeds the number of scanning steps
of the corresponding single pass. -/
def prettifySalesforceFormula (formula : List Char) : List Char :=
  if formula = [] then formula
  else
    let r0 := jsTrim formula
    let r1 := PLACEHOLDERS.foldl
      (fun r p => replaceAllLit (r.length + 1) p.1 p.2 r) r0
    let r2 := (['=', '>', '<', '+', '-', '*', '/']).foldl
      (fun r c =>
        replaceAroundSet (r.length + 1) (fun x => x = c) (fun _ => [' ', c, ' ']) r) r1
    let r3 := replaceAroundSet (r2.length + 1)
      (fun x => x = '(' || x = ')' || x = ',') (fun x => [x, ' ']) r2
    let r4 := collapseHT (r3.length + 1) r3
    let r5 := RESTORES.foldl
      (fun r p => replaceAllLit (r.length + 1) p.1 p.2 r) r4
    let r6 := replacePairHT (r5.length + 1) '>' '=' " >= ".toList r5
    let r7 := replacePairHT (r6.length + 1) '<' '=' " <= ".toList r6
    let r8 := replacePairHT (r7.length + 1) '<' '>' " <> ".toList r7
    let r9 := replacePairHT (r8.length + 1) '=' '=' " == ".toList r8
    let r10 := replacePairHT (r9.length + 1) '&' '&' " && ".toList r9
    let r11 := replacePairHT (r10.length + 1) '|' '|' " || ".toList r10
    let r12 := jsTrim (collapseHT (r11.length + 1) r11)
    let r13 := allFunctionsPretty.foldl
      (fun r w => replaceWordCI (r.length + 1) w false r) r12
    let r14 := constantsList.foldl
      (fun r w => replaceWordCI (r.length + 1) w false r) r13
    let r15 := replaceAroundSet (r14.length + 1)
      (fun x => x = '(') (fun _ => [' ', '(']) r14
    let r16 := replaceAroundSet (r15.length + 1)
      (fun x => x = ')') (fun _ => [')', ' ']) r15
    jsTrim (collapseHT (r16.length + 1) r16)

theorem scanStringBody_len (q : Char) (l : List Char) :
    (scanStringBody q l).1.length = (scanStringBody q l).2 := by
  induction l using scanStringBody.induct q <;>
    (rw [scanStringBody.eq_def]; simp_all)

theorem scanBlockBody_len (l : List Char) :
    (scanBlockBody l).1.length = (scanBlockBody l).2 := by
  induction l using scanBlockBody.induct <;>
    (rw [scanBlockBody.eq_def]; simp_all)

theorem extractBalanced_len (count : Int) (l : List Char) :
    (extractBalanced count l).1.length = (extractBalanced count l).2 := by
  induction count, l using extractBalanced.induct <;>
    (rw [extractBalanced.eq_def]; split_ifs <;> simp_all)

theorem scanFieldTail_len (count : Int) (l : List Char) :
    (scanFieldTail count l).1.length = (scanFieldTail count l).2 := by
  induction count, l using scanFieldTail.induct <;>
    (rw [scanFieldTail.eq_def]; split_ifs <;> simp_all)

theorem opLen_pos : ∀ op ∈ OPERATORS, 1 ≤ op.length := by decide

theorem identStart_identChar {c : Char} (h : isIdentStartJS c = true) :
    isIdentCharJS c = true := by
  simp only [isIdentStartJS, isIdentCharJS, Bool.or_eq_true, decide_eq_true_eq] at *
  tauto

theorem extractBalanced_consumed_pos (count : Int) (c : Char) (rest : List Char)
    (h : ¬count < 0) : 1 ≤ (extractBalanced count (c :: rest)).2 := by
  rw [extractBalanced.eq_def]
  simp only [h, if_false]
  split_ifs <;> simp

/-- The per-iteration contract used by the partition proof: at least one
character is consumed, and either a token with span exactly the consumed
range is emitted, or nothing is emitted, one character is consumed and that
character is a dot. -/
def StepSpec (pos : Nat) (c : Char) (r : Option Token × Nat) : Prop :=
  1 ≤ r.2 ∧
    ((∃ t, r.1 = some t ∧ t.start = pos ∧ t.stop = pos + r.2) ∨
      (r.1 = none ∧ r.2 = 1 ∧ c = '.'))

theorem wsStep_spec (pos : Nat) (c : Char) (rest : List Char)
    (h : isSpaceJS c = true) : StepSpec pos c (wsStep pos c rest) := by
  refine ⟨?_, Or.inl ⟨_, rfl, ?_, ?_⟩⟩ <;>
    simp [wsStep, List.takeWhile_cons, h]

theorem stringStep_spec (q : Char) (pos : Nat) (c : Char) (rest : List Char) :
    StepSpec pos c (stringStep q pos c rest) := by
  have hlen := scanStringBody_len q rest
  constructor
  · simp only [stringStep]
    split_ifs <;> simp
  · refine Or.inl ?_
    simp only [stringStep]
    split_ifs with h
    · refine ⟨_, rfl, ?_, ?_⟩ <;> simp_all <;> omega
    · refine ⟨_, rfl, ?_, ?_⟩ <;> simp_all <;> omega

theorem blockCommentStep_spec (pos : Nat) (c : Char) (rest : List Char) :
    StepSpec pos c (blockCommentStep pos rest) := by
  have hlen := scanBlockBody_len rest.tail
  constructor
  · simp only [blockCommentStep]
    split_ifs <;> simp
  · refine Or.inl ?_
    simp only [blockCommentStep]
    split_ifs with h
    · refine ⟨_, rfl, ?_, ?_⟩ <;> simp_all <;> omega
    · refine ⟨_, rfl, ?_, ?_⟩ <;> simp_all <;> omega

theorem lineCommentStep_spec (pos : Nat) (c : Char) (rest : List Char) :
    StepSpec pos c (lineCommentStep pos rest) := by
  refine ⟨?_, Or.inl ⟨_, rfl, ?_, ?_⟩⟩ <;> simp [lineCommentStep]

theorem bracketStep_spec (pos : Nat) (rest : List Char) :
    StepSpec pos '[' (bracketStep pos '[' rest) := by
  have h1 : 1 ≤ (extractBalanced 0 ('[' :: rest)).2 :=
    extractBalanced_consumed_pos 0 '[' rest (by omega)
  have h2 := scanFieldTail_len 1 rest
  constructor
  · simp only [bracketStep]
    split_ifs <;> simp <;> omega
  · refine Or.inl ?_
    simp only [bracketStep]
    split_ifs with h hdot
    · exact ⟨_, rfl, rfl, rfl⟩
    · refine ⟨_, rfl, ?_, ?_⟩ <;> simp_all <;> omega
    · refine ⟨_, rfl, ?_, ?_⟩ <;> simp_all <;> omega

theorem dotStep_spec (last : Option TokenType) (pos : Nat) (rest : List Char) :
    StepSpec pos '.' (dotStep last pos '.' rest) := by
  constructor
  · simp only [dotStep]
    split_ifs <;> simp
  · simp only [dotStep]
    split_ifs with h
    · refine Or.inr ⟨?_, ?_, ?_⟩ <;> first | rfl | trivial
    · exact Or.inl ⟨_, rfl, rfl, rfl⟩

theorem numberStep_spec (pos : Nat) (c : Char) (rest : List Char)
    (h : isDigitJS c = true) : StepSpec pos c (numberStep pos c rest) := by
  refine ⟨?_, Or.inl ⟨_, rfl, ?_, ?_⟩⟩ <;>
    simp [numberStep, List.takeWhile_cons, h]

theorem identStep_spec (pos : Nat) (c : Char) (rest : List Char)
    (h : isIdentStartJS c = true) : StepSpec pos c (identStep pos c rest) := by
  refine ⟨?_, Or.inl ⟨_, rfl, ?_, ?_⟩⟩ <;>
    simp [identStep, List.takeWhile_cons, identStart_identChar h]

theorem lowStep_spec (last : Option TokenType) (pos : Nat) (c : Char)
    (rest : List Char) : StepSpec pos c (lowStep last pos c rest) := by
  unfold lowStep
  split_ifs with g1 g2 g3 g4 g5 g6
  · subst g1; exact bracketStep_spec pos rest
  · exact ⟨le_refl 1, Or.inl ⟨_, rfl, rfl, rfl⟩⟩
  · exact ⟨le_refl 1, Or.inl ⟨_, rfl, rfl, rfl⟩⟩
  · exact numberStep_spec pos c rest g4
  · subst g5; exact dotStep_spec last pos rest
  · exact identStep_spec pos c rest g6
  · exact ⟨le_refl 1, Or.inl ⟨_, rfl, rfl, rfl⟩⟩

theorem scanStep_spec (last : Option TokenType) (pos : Nat) (c : Char)
    (rest : List Char) : StepSpec pos c (scanStep last pos c rest) := by
  unfold scanStep
  split_ifs with h1 h2 h3 h4 h5
  · exact wsStep_spec pos c rest h1
  · exact stringStep_spec dquoteChar pos c rest
  · exact stringStep_spec squoteChar pos c rest
  · exact blockCommentStep_spec pos c rest
  · exact lineCommentStep_spec pos c rest
  · split
    · next op hop =>
      have hmem := List.mem_of_find?_eq_some hop
      exact ⟨opLen_pos op hmem, Or.inl ⟨_, rfl, rfl, rfl⟩⟩
    · exact lowStep_spec last pos c rest

/-- Spans of `ts` are pairwise disjoint, in strictly increasing order, and
start at or after `p`: each token is non-empty and each subsequent token
starts no earlier than the previous token's end. -/
def spansChainFrom : Nat → List Token → Prop
  | _, [] => True
  | p, t :: ts => p ≤ t.start ∧ t.start < t.stop ∧ spansChainFrom t.stop ts

theorem spansChainFrom_mono {p q : Nat} (h : q ≤ p) :
    ∀ {ts : List Token}, spansChainFrom p ts → spansChainFrom q ts
  | [], _ => trivial
  | _ :: _, ⟨h1, h2, h3⟩ => ⟨le_trans h h1, h2, h3⟩

theorem tokenizeAux_cons (fuel pos : Nat) (c : Char) (rest : List Char)
    (acc : List Token) :
    tokenizeAux (fuel + 1) pos (c :: rest) acc =
      match scanStep (acc.head?.map Token.type) pos c rest with
      | (some t, n) => tokenizeAux fuel (pos + n) ((c :: rest).drop n) (t :: acc)
      | (none, n) => tokenizeAux fuel (pos + n) ((c :: rest).drop n) acc := rfl

theorem tokenizeAux_spec :
    ∀ (fuel pos : Nat) (l : List Char) (acc : List Token), l.length < fuel →
      ∃ ts, tokenizeAux fuel pos l acc = acc.reverse ++ ts ∧
        spansChainFrom pos ts ∧
        ∀ i, i < l.length →
          (∃ t ∈ ts, t.start ≤ pos + i ∧ pos + i < t.stop) ∨ l.get? i = some '.'
  | 0, _, l, _, h => absurd h (by omega)
  | fuel + 1, pos, [], acc, _ => by
    refine ⟨[], ?_, trivial, ?_⟩
    · rw [show tokenizeAux (fuel + 1) pos [] acc = acc.reverse from rfl]
      simp
    · intro i hi
      simp at hi
  | fuel + 1, pos, c :: rest, acc, h => by
    rcases hstep : scanStep (acc.head?.map Token.type) pos c rest with ⟨ot, n⟩
    have hspec := scanStep_spec (acc.head?.map Token.type) pos c rest
    rw [hstep] at hspec
    obtain ⟨hn, hdisj⟩ := hspec
    simp only at hn
    rcases hdisj with ⟨t, hot, hstart, hstop⟩ | ⟨hnone, hn1, hc⟩
    · simp only at hot hstart hstop
      subst hot
      have hlt : ((c :: rest).drop n).length < fuel := by
        simp only [List.length_drop, List.length_cons] at *
        omega
      obtain ⟨ts', heq, hchain, hcov⟩ :=
        tokenizeAux_spec fuel (pos + n) ((c :: rest).drop n) (t :: acc) hlt
      refine ⟨t :: ts', ?_, ?_, ?_⟩
      · rw [tokenizeAux_cons, hstep]
        dsimp only
        rw [heq]
        simp
      · exact ⟨le_of_eq hstart.symm, by omega, hstop ▸ hchain⟩
      · intro i hi
        by_cases hin : i < n
        · exact Or.inl ⟨t, List.mem_cons_self t ts', by omega, by omega⟩
        · have hi' : i - n < ((c :: rest).drop n).length := by
            simp only [List.length_drop, List.length_cons] at *
            omega
          rcases hcov (i - n) hi' with ⟨t', ht'm, ht'1, ht'2⟩ | hdot
          · refine Or.inl ⟨t', List.mem_cons_of_mem t ht'm, by omega, by omega⟩
          · right
            rw [List.get?_drop] at hdot
            have : n + (i - n) = i := by omega
            rwa [this] at hdot
    · simp only at hnone hn1
      subst hnone
      subst hn1
      have hlt : rest.length < fuel := by
        simp only [List.length_cons] at h
        omega
      obtain ⟨ts', heq, hchain, hcov⟩ :=
        tokenizeAux_spec fuel (pos + 1) rest acc hlt
      refine ⟨ts', ?_, spansChainFrom_mono (by omega) hchain, ?_⟩
      · rw [tokenizeAux_cons, hstep]
        dsimp only
        simpa using heq
      · intro i hi
        match i with
        | 0 => exact Or.inr (by simp [hc])
        | j + 1 =>
          have hj : j < rest.length := by
            simp only [List.length_cons] at hi
            omega
          rcases hcov j hj with ⟨t', ht'm, ht'1, ht'2⟩ | hdot
          · exact Or.inl ⟨t', ht'm, by omega, by omega⟩
          · exact Or.inr (by simpa using hdot)

/-- Claim C2's coverage property at input `f`: every character position of
`f` lies inside the span of some returned token. -/
def tokensCoverAll (f : List Char) : Prop :=
  ∀ q, q < f.length → ∃ t ∈ tokenizeFormula f, t.start ≤ q ∧ q < t.stop

instance tokensCoverAllDec (f : List Char) : Decidable (tokensCoverAll f) := by
  unfold tokensCoverAll
  infer_instance

/-- C2, counterexample: on `"[].[]..["` the spans of the returned tokens do
not cover every character of the input — the second dot (offset 6) is
consumed by the dot-suppression rule without any token receiving it, so the
token sequence is not a total partition of the input. -/
theorem c2_counterexample : ¬ tokensCoverAll ("[].[]..[".toList) := by decide

/-- C2, amended: for every input string the tokens returned by `tokenize`
have strictly increasing, non-overlapping spans, and every character
position of the input is covered by some token's span **except possibly
positions holding a `'.'` character** (which the dot-suppression rule can
skip without emitting a token). -/
theorem c2_token_spans (f : List Char) :
    spansChainFrom 0 (tokenizeFormula f) ∧
      ∀ q, q < f.length →
        (∃ t ∈ tokenizeFormula f, t.start ≤ q ∧ q < t.stop) ∨
          f.get? q = some '.' := by
  unfold tokenizeFormula
  split_ifs with hf
  · subst hf
    exact ⟨trivial, by intro q hq; simp at hq⟩
  · obtain ⟨ts, heq, hchain, hcov⟩ :=
      tokenizeAux_spec (f.length + 1) 0 f [] (by omega)
    simp only [List.reverse_nil, List.nil_append] at heq
    rw [heq]
    refine ⟨hchain, ?_⟩
    intro q hq
    simpa using hcov q hq

/-- Witness for `c2_token_spans` at the concrete input `"[].[]..["` and
position 6 (the suppressed dot): the disjunction holds there via its right
branch. -/
theorem c2_token_spans_witness :
    6 < ("[].[]..[".toList).length ∧
      ((∃ t ∈ tokenizeFormula ("[].[]..[".toList), t.start ≤ 6 ∧ 6 < t.stop) ∨
        ("[].[]..[".toList).get? 6 = some '.') :=
  ⟨by decide, (c2_token_spans ("[].[]..[".toList)).2 6 (by decide)⟩

/-- C10: every iteration of the tokenizer's scanning loop consumes at least
one character (every rule, including the single-character fallback and the
dot-suppression path, advances the cursor), so the loop terminates on every
finite input; this is the progress fact that justifies the well-founded
(fuel-based) definition of `tokenizeAux`. -/
theorem c10_scan_progress (last : Option TokenType) (pos : Nat) (c : Char)
    (rest : List Char) : 1 ≤ (scanStep last pos c rest).2 :=
  (scanStep_spec last pos c rest).1

/-- C3: `"[Account].[Owner].[Name]"` tokenizes to exactly one `nested_field`
token with the dot-joined value; `"[Account.Name]"` tokenizes to exactly one
`nested_field` token; `"[Name]"` tokenizes to exactly one `field` token. -/
theorem c3_nested_field_joining :
    tokenizeFormula ("[Account].[Owner].[Name]".toList) =
      [⟨TokenType.nested_field, "[Account].[Owner].[Name]".toList, 0, 24⟩] ∧
    tokenizeFormula ("[Account.Name]".toList) =
      [⟨TokenType.nested_field, "[Account.Name]".toList, 0, 14⟩] ∧
    tokenizeFormula ("[Name]".toList) =
      [⟨TokenType.field, "[Name]".toList, 0, 6⟩] := by
  refine ⟨?_, ?_, ?_⟩ <;> decide

/-- C4: `detectErrors("IF(1,2,3")` reports exactly one `syntax` error for the
unmatched opening parenthesis, positioned at `length - 1 = 7`;
`detectErrors("IF(1,2,3))")` reports exactly one `syntax` error for the extra
closing parenthesis, positioned at 9, which is the start offset of that `)`
token. -/
theorem c4_paren_errors :
    detectFormulaErrors ("IF(1,2,3".toList) =
      [⟨7, "1 unmatched opening parenthesis", "syntax"⟩] ∧
    ("IF(1,2,3".toList).length - 1 = 7 ∧
    detectFormulaErrors ("IF(1,2,3))".toList) =
      [⟨9, "Unmatched closing parenthesis", "syntax"⟩] ∧
    (∃ t ∈ tokenizeFormula ("IF(1,2,3))".toList),
      t.type = TokenType.parenthesis ∧ t.value = [')'] ∧ t.start = 9) := by
  refine ⟨?_, ?_, ?_, ?_⟩ <;> decide

/-- C1, counterexample: `prettify("if(a=1,true,false)")` is **not** the
string `"IF(a = 1, TRUE, FALSE)"` — the final parenthesis-spacing pass of
the source replaces `(`-adjacent whitespace with `" ("`, inserting a space
before the opening parenthesis. -/
theorem c1_counterexample :
    prettifySalesforceFormula ("if(a=1,true,false)".toList) ≠
      "IF(a = 1, TRUE, FALSE)".toList := by decide

/-- C1, amended: `prettify("if(a=1,true,false)")` returns
`"IF (a = 1, TRUE, FALSE)"`: the function name and the constants are
uppercased, the `=` operator and the commas are spaced, no space is inserted
inside the identifier `a`, and exactly one space appears before the opening
parenthesis (inserted by the final parenthesis-spacing pass). -/
theorem c1_prettify_example :
    prettifySalesforceFormula ("if(a=1,true,false)".toList) =
      "IF (a = 1, TRUE, FALSE)".toList := by decide

/-- C8, counterexample: `prettify` is not idempotent, even on an input with
no string literal at all: for `"<===,"` the first pass yields `"< == = ,"`
but the second pass yields `"< == =,"` (the comma pass eats the space that
the `==` fix-up re-inserted on the first pass). -/
theorem c8_counterexample :
    prettifySalesforceFormula
        (prettifySalesforceFormula ("<===,".toList)) ≠
      prettifySalesforceFormula ("<===,".toList) := by decide

/-- C8, amended: idempotence does not hold for all formulas without
operator-bearing string literals, but it does hold on the spec's own
normalized example: prettifying `"if(a=1,true,false)"` twice equals
prettifying it once. -/
theorem c8_idempotent_on_example :
    prettifySalesforceFormula
        (prettifySalesforceFormula ("if(a=1,true,false)".toList)) =
      prettifySalesforceFormula ("if(a=1,true,false)".toList) := by decide

theorem charLe_iff_toNat (a b : Char) : (a ≤ b) ↔ (a.toNat ≤ b.toNat) := Iff.rfl

theorem toNat_ofNat_valid (n : Nat) (h : n < 0xd800) :
    (Char.ofNat n).toNat = n := by
  unfold Char.ofNat
  rw [dif_pos (Or.inl h)]
  simp [Char.ofNatAux, Char.toNat, UInt32.toNat, BitVec.toNat_ofNatLt]

/-- The ASCII uppercase map is idempotent on characters. -/
theorem toUpperJS_idem (c : Char) : toUpperJS (toUpperJS c) = toUpperJS c := by
  by_cases h : isLowerAZ c = true
  · have hb : 97 ≤ c.toNat ∧ c.toNat ≤ 122 := by
      simp only [isLowerAZ, Bool.and_eq_true, decide_eq_true_eq] at h
      obtain ⟨h1, h2⟩ := h
      exact ⟨h1, h2⟩
    have hv : (Char.ofNat (c.toNat - 32)).toNat = c.toNat - 32 :=
      toNat_ofNat_valid _ (by omega)
    have hA : ¬('a' ≤ Char.ofNat (c.toNat - 32)) := by
      rw [charLe_iff_toNat, hv]
      show ¬(97 ≤ c.toNat - 32)
      omega
    have hlow : isLowerAZ (Char.ofNat (c.toNat - 32)) = false := by
      simp [isLowerAZ, hA]
    simp [toUpperJS, h, hlow]
  · simp [toUpperJS, h]

/-- The ASCII uppercase map is idempotent on strings. -/
theorem upperJS_idem (v : List Char) : upperJS (upperJS v) = upperJS v := by
  simp [upperJS, Function.comp, toUpperJS_idem]

theorem classifyOne_spans (orig : List Token) (i : Nat) (t : Token) :
    (classifyOne orig i t).start = t.start ∧ (classifyOne orig i t).stop = t.stop := by
  unfold classifyOne
  split_ifs
  all_goals try simp
  all_goals split_ifs
  all_goals simp

theorem classifyOne_non_identifier (orig : List Token) (i : Nat) (t : Token)
    (h : ¬t.type = TokenType.identifier) : classifyOne orig i t = t := by
  unfold classifyOne
  simp [h]

theorem classifyOne_value (orig : List Token) (i : Nat) (t : Token) :
    upperJS (classifyOne orig i t).value = upperJS t.value := by
  unfold classifyOne
  split_ifs
  all_goals try simp [upperJS_idem]
  all_goals split_ifs
  all_goals simp [upperJS_idem]

theorem classifyAux_length (orig : List Token) :
    ∀ (i : Nat) (l : List Token), (classifyAux orig i l).length = l.length
  | _, [] => rfl
  | i, _ :: rest => by
    simp [classifyAux, classifyAux_length orig (i + 1) rest]

/-- Unfolding equation for the classifier's whitespace-skipping look-ahead. -/
theorem nextNonWs_cons (t : Token) (ts : List Token) :
    nextNonWsIsOpenParen (t :: ts) =
      if t.type == TokenType.whitespace then nextNonWsIsOpenParen ts
      else (t.type == TokenType.parenthesis && t.value == ['(']) := by
  unfold nextNonWsIsOpenParen
  rw [List.dropWhile_cons]
  split_ifs <;> simp_all

theorem classifyOne_ws_iff (orig : List Token) (i : Nat) (t : Token) :
    ((classifyOne orig i t).type == TokenType.whitespace) =
      (t.type == TokenType.whitespace) := by
  unfold classifyOne
  split_ifs
  all_goals try (first | rfl | simp_all)
  all_goals try split_ifs
  all_goals first | rfl | simp_all

theorem classifyOne_paren (orig : List Token) (i : Nat) (t : Token) :
    ((classifyOne orig i t).type == TokenType.parenthesis &&
        (classifyOne orig i t).value == ['(']) =
      (t.type == TokenType.parenthesis && t.value == ['(']) := by
  unfold classifyOne
  split_ifs
  all_goals try (first | rfl | simp_all)
  all_goals try split_ifs
  all_goals first | rfl | simp_all

/-- The classifier's look-ahead is stable under classification: classifying
the tokens after position `i` does not change whether the first
non-whitespace one is an opening parenthesis. -/
theorem nextNonWs_classifyAux (orig : List Token) :
    ∀ (i : Nat) (l : List Token),
      nextNonWsIsOpenParen (classifyAux orig i l) = nextNonWsIsOpenParen l
  | _, [] => rfl
  | i, t :: rest => by
    rw [classifyAux, nextNonWs_cons, nextNonWs_cons, classifyOne_ws_iff,
      classifyOne_paren]
    split_ifs
    · exact nextNonWs_classifyAux orig (i + 1) rest
    · rfl

theorem classifyAux_drop (orig : List Token) :
    ∀ (k i : Nat) (l : List Token),
      (classifyAux orig i l).drop k = classifyAux orig (i + k) (l.drop k)
  | 0, i, l => by simp
  | _ + 1, _, [] => by simp [classifyAux]
  | k + 1, i, t :: rest => by
    rw [classifyAux]
    simp only [List.drop_succ_cons]
    rw [classifyAux_drop orig k (i + 1) rest]
    congr 1
    omega

theorem classifyOne_idem (ts : List Token) (i : Nat) (t : Token) :
    classifyOne (classifyTokens ts) i (classifyOne ts i t) = classifyOne ts i t := by
  have hL : nextNonWsIsOpenParen ((classifyTokens ts).drop (i + 1)) =
      nextNonWsIsOpenParen (ts.drop (i + 1)) := by
    unfold classifyTokens
    rw [classifyAux_drop ts (i + 1) 0 ts]
    simp only [Nat.zero_add]
    exact nextNonWs_classifyAux ts (i + 1) (ts.drop (i + 1))
  by_cases h1 : t.type = TokenType.identifier
  · by_cases h2 : upperJS t.value ∈ allFunctionsFull
    · rw [show classifyOne ts i t =
          { t with type := TokenType.function, value := upperJS t.value } by
            unfold classifyOne; simp [h1, h2]]
      exact classifyOne_non_identifier _ _ _ (by simp)
    · by_cases h3 : upperJS t.value ∈ constantsList
      · rw [show classifyOne ts i t =
            { t with type := TokenType.constant, value := upperJS t.value } by
              unfold classifyOne; simp [h1, h2, h3]]
        exact classifyOne_non_identifier _ _ _ (by simp)
      · by_cases h4 : (startsLowerJS t.value &&
            nextNonWsIsOpenParen (ts.drop (i + 1))) = true
        · rw [show classifyOne ts i t =
              { t with type := TokenType.custom_function } by
                unfold classifyOne; simp [h1, h2, h3, h4]]
          exact classifyOne_non_identifier _ _ _ (by simp)
        · by_cases h5 : (t.value.contains '_' &&
              matchesFormulaFieldPattern t.value) = true
          · rw [show classifyOne ts i t =
                { t with type := TokenType.formula_field } by
                  unfold classifyOne; simp_all]
            exact classifyOne_non_identifier _ _ _ (by simp)
          · rw [show classifyOne ts i t = t by
                unfold classifyOne; simp_all; split_ifs <;> simp_all]
            unfold classifyOne
            rw [hL]
            simp_all
            split_ifs <;> simp_all
  · rw [classifyOne_non_identifier ts i t h1]
    exact classifyOne_non_identifier _ _ _ h1

theorem classifyAux_idem (ts : List Token) :
    ∀ (i : Nat) (l : List Token),
      classifyAux (classifyTokens ts) i (classifyAux ts i l) = classifyAux ts i l
  | _, [] => rfl
  | i, t :: rest => by
    rw [classifyAux, classifyAux, classifyOne_idem ts i t,
      classifyAux_idem ts (i + 1) rest]

/-- C7: the classifier is idempotent — classifying an already classified
token sequence changes nothing. -/
theorem c7_classify_idempotent (tokens : List Token) :
    classifyTokens (classifyTokens tokens) = classifyTokens tokens := by
  conv_lhs => rw [show classifyTokens (classifyTokens tokens) =
    classifyAux (classifyTokens tokens) 0 (classifyAux tokens 0 tokens) from rfl]
  rw [classifyAux_idem tokens 0 tokens]
  rfl

theorem classifyAux_forall2 (orig : List Token) :
    ∀ (i : Nat) (l : List Token),
      List.Forall₂
        (fun t t' => t'.start = t.start ∧ t'.stop = t.stop ∧
          (¬t.type = TokenType.identifier → t' = t) ∧
          upperJS t'.value = upperJS t.value)
        l (classifyAux orig i l)
  | _, [] => List.Forall₂.nil
  | i, t :: rest =>
    List.Forall₂.cons
      ⟨(classifyOne_spans orig i t).1, (classifyOne_spans orig i t).2,
        fun h => classifyOne_non_identifier orig i t h,
        classifyOne_value orig i t⟩
      (classifyAux_forall2 orig (i + 1) rest)

/-- C6: `classify` is a frame-preserving transform — the output has the same
length, every token keeps its `start` and `stop` offsets, every token whose
kind is not `identifier` is returned unchanged, and every token's value is
unchanged up to ASCII letter casing (`upperJS`-equivalence). -/
theorem c6_classify_frame (tokens : List Token) :
    (classifyTokens tokens).length = tokens.length ∧
      List.Forall₂
        (fun t t' => t'.start = t.start ∧ t'.stop = t.stop ∧
          (¬t.type = TokenType.identifier → t' = t) ∧
          upperJS t'.value = upperJS t.value)
        tokens (classifyTokens tokens) :=
  ⟨classifyAux_length tokens 0 tokens, classifyAux_forall2 tokens 0 tokens⟩

/-- Witness for `c6_classify_frame` at the concrete input `"if(1)"`. -/
theorem c6_classify_frame_witness :
    (classifyTokens (tokenizeFormula ("if(1)".toList))).length =
      (tokenizeFormula ("if(1)".toList)).length :=
  (c6_classify_frame (tokenizeFormula ("if(1)".toList))).1

/-- Modelled from the claim (refinement): the flag condition under which the
error detector reports an identifier token as an invalid function call —
the next non-whitespace token after it is `(`, its uppercase form is not in
the function table, and its first character is uppercase. -/
def functionFlag (t : Token) (rest : List Token) : Bool :=
  t.type == TokenType.identifier && nextNonWsIsOpenParen rest &&
    !(allFunctionsFull.contains (upperJS t.value)) && startsUpperJS t.value

/-- Modelled from the claim (refinement): the function-kind errors, one per
flagged identifier token, in token order. -/
def functionErrorsSpec : List Token → List FormulaError
  | [] => []
  | t :: rest =>
    (if functionFlag t rest then
      [⟨t.start, "Invalid function: " ++ String.mk t.value, "function"⟩]
    else []) ++ functionErrorsSpec rest

theorem detectLoop_filter : ∀ (ts : List Token) (op ob : Int),
    ((detectLoop ts op ob).1).filter (fun e => e.type == "function") =
      functionErrorsSpec ts
  | [], _, _ => rfl
  | t :: rest, op, ob => by
    rw [detectLoop, functionErrorsSpec]
    simp only [List.filter_append, detectLoop_filter rest _ _]
    congr 1
    simp only [functionFlag]
    split_ifs <;> simp_all

/-- C5: the error detector emits a function-kind error exactly per the
claim's condition — its function-kind errors are precisely one error
`"Invalid function: <value>"` at `t.start` for each identifier token `t`
whose next non-whitespace token is `(`, whose uppercase form is not in the
function table, and whose first character is uppercase (so an identifier
with a lowercase first character is never flagged); in particular
`detectErrors("FOO(1)")` reports exactly one such error. -/
theorem c5_function_error_characterization :
    (∀ f : List Char,
      (detectFormulaErrors f).filter (fun e => e.type == "function") =
        functionErrorsSpec (tokenizeFormula f)) ∧
      detectFormulaErrors ("FOO(1)".toList) =
        [⟨0, "Invalid function: FOO", "function"⟩] := by
  constructor
  · intro f
    unfold detectFormulaErrors
    split_ifs with hf
    · subst hf
      rfl
    · simp only [List.filter_append, detectLoop_filter]
      split_ifs <;> simp
  · decide

/-- A JS argument that may fail the `typeof formula !== "string"` guard:
either an actual string or any non-string value. -/
inductive JSInput where
  | str : List Char → JSInput
  | nonString : JSInput
deriving DecidableEq, Repr

/-- `tokenizeFormula` on a possibly non-string input: the guard returns `[]`
for non-strings. -/
def tokenizeJS : JSInput → List Token
  | .str s => tokenizeFormula s
  | .nonString => []

/-- `detectFormulaErrors` on a possibly non-string input. -/
def detectErrorsJS : JSInput → List FormulaError
  | .str s => detectFormulaErrors s
  | .nonString => []

/-- `prettifySalesforceFormula` on a possibly non-string input: the guard
returns the input itself unchanged. -/
def prettifyJS : JSInput → JSInput
  | .str s => .str (prettifySalesforceFormula s)
  | .nonString => .nonString

/-- C9: non-string input and the empty string yield the empty sequence from
the tokenizer and the error detector, and the pretty-printer returns such
input unchanged; the remaining core functions always return a value (each is
a total Lean function by construction; `markErrors` and `classify` in
particular return a token list of the input's length for every input). -/
theorem c9_total_guards :
    tokenizeJS JSInput.nonString = [] ∧
    tokenizeFormula [] = [] ∧
    detectErrorsJS JSInput.nonString = [] ∧
    detectFormulaErrors [] = [] ∧
    prettifyJS JSInput.nonString = JSInput.nonString ∧
    prettifySalesforceFormula [] = [] ∧
    (∀ (ts : List Token) (es : List FormulaError),
      (markErrorTokens ts es).length = ts.length) ∧
    (∀ ts : List Token, (classifyTokens ts).length = ts.length) := by
  refine ⟨rfl, rfl, rfl, rfl, rfl, rfl, ?_, ?_⟩
  · intro ts es
    unfold markErrorTokens
    simp
  · intro ts
    exact classifyAux_length ts 0 ts

end Sfdc
